import Mathlib

/-!
SpeakEase — verification of the scoring/aggregation logic

Shallow embedding of the aggregation-related code of the SpeakEase
repository.  Scores and weights are embedded as rational numbers (`ℚ`);
JavaScript's `Math.round` is embedded as rounding half toward positive
infinity; a possibly-missing JavaScript field (`undefined`) is embedded
as `Option`.

The frontend files (`ScenarioOverview.js`, `HistoryPage.js`,
`VideoMeeting.js`) are embedded directly from their source.  The backend
`Performance_Analyzer` / session-accumulator Python code is not part of
the source tree (only its README and its frontend callers are), so those
operations are modelled from the specification; each such definition
carries a doc comment starting `Modelled from the spec:`.
-/

namespace SpeakEase

/-- JavaScript `Math.round x`: the integer nearest to `x`, rounding
half toward positive infinity (`Math.round 0.5 = 1`, `Math.round (-0.5) = 0`). -/
def jsRound (q : ℚ) : ℤ := ⌊q + 1/2⌋

/-- Evaluation rule for `jsRound` on concrete rationals. -/
theorem jsRound_eq (q : ℚ) (n : ℤ) (h₁ : (n : ℚ) ≤ q + 1/2)
    (h₂ : q + 1/2 < (n : ℚ) + 1) : jsRound q = n := by
  rw [jsRound, Int.floor_eq_iff]
  exact ⟨h₁, by exact_mod_cast h₂⟩

/-! ## Weight configuration (`Performance_Analyzer/Config/weights.py`,
quoted verbatim in the backend README under `src/unnamed/part_005`) -/

/-- The `"overall"` map of `DEFAULT_WEIGHTS`: category → weight. -/
def DEFAULT_WEIGHTS_overall : List (String × ℚ) :=
  [("verbal", 0.2), ("body_language", 0.3), ("interaction", 0.5)]

/-- The `"categories"` map of `DEFAULT_WEIGHTS`: per-category metric → weight. -/
def DEFAULT_WEIGHTS_categories : List (String × List (String × ℚ)) :=
  [("verbal",
     [("language_quality", 0.0), ("speech_style", 0.5), ("grammar_ml", 0.5)]),
   ("body_language",
     [("eye_contact", 0.34), ("head_pose", 0.33), ("facial_expression", 0.33)]),
   ("interaction",
     [("tone", 0.2), ("content_answer_quality", 0.8)])]

/-! ## `ScenarioOverview.js` -/

/--
Embedding of `pieData` (`ScenarioOverview.js`, lines 134–137):

```js
const pieData = Object.entries(analyzers).map(([key, value]) => ({
    name: ...,
    value: Math.round(value.score || 0)
})).filter(item => item.value > 0); // Filter out analyzers with 0 score
```

An analyzer entry is embedded as `(key, score?)`; `value.score || 0`
coerces a missing (or zero) score to `0`.  The cosmetic display-name
transformation (underscores to spaces, capitalisation) is presentation
only and the key is carried unchanged.
-/
def pieData (analyzers : List (String × Option ℚ)) : List (String × ℤ) :=
  (analyzers.map (fun kv => (kv.1, jsRound (kv.2.getD 0)))).filter
    (fun item => 0 < item.2)

/--
Embedding of `calculateOverallGrade` (`ScenarioOverview.js`, lines 147–156):

```js
const calculateOverallGrade = () => {
    const categoryScores = Object.values(categories)
        .map(cat => cat.score || 0).filter(score => score > 0);
    if (categoryScores.length === 0) return 0;
    const totalScore = categoryScores.reduce((sum, score) => sum + score, 0);
    const avgScore = Math.round(totalScore / categoryScores.length);
    return isNaN(avgScore) ? 0 : avgScore;
};
```

The input is the list of the categories' `score` fields (`none` for a
missing score).  The `isNaN` guard is vacuous over `ℚ`.
-/
def calculateOverallGrade (categories : List (Option ℚ)) : ℤ :=
  let categoryScores := (categories.map (fun cat => cat.getD 0)).filter
    (fun score => 0 < score)
  if categoryScores.length = 0 then 0
  else jsRound (categoryScores.sum / categoryScores.length)

/-! ## Aggregator (spec §4.5)

The backend `Performance_Analyzer` aggregation code is not part of the
source tree; the definitions below are modelled from the specification. -/

/-- Output of one analyzer for one answer (spec §3 `MetricResult`;
provenance and diagnostic fields are not used in aggregation). -/
structure MetricResult where
  metric : String
  score : ℚ
  confidence : ℚ
deriving DecidableEq, Repr

/-- Look a metric's configured weight up in a weight map
(a metric absent from the map weighs `0`). -/
def lookupWeight (weights : List (String × ℚ)) (metric : String) : ℚ :=
  match weights with
  | [] => 0
  | (k, w) :: rest => if metric == k then w else lookupWeight rest metric

/-- Whether a metric appears in a weight map (the category-membership
test of spec §4.5 step 1). -/
def hasWeight (weights : List (String × ℚ)) (metric : String) : Bool :=
  weights.any (fun p => metric == p.1)

/-- Modelled from the spec: renormalization of a category's configured
weights over the present metrics (§4.5 step 3): "divide each present
metric's configured weight by the sum of configured weights of present
metrics". -/
def renormalizedWeights (weights : List (String × ℚ)) (present : List String) :
    List ℚ :=
  let total := (present.map (lookupWeight weights)).sum
  present.map (fun m => lookupWeight weights m / total)

/-- Modelled from the spec: a category's score (§4.5 steps 1–3).
Select the results whose metric belongs to the category's weight map and
whose confidence is positive; if none, the score is undefined (`none`);
otherwise renormalize the configured weights over the present metrics
and take the weighted sum of the scores. -/
def categoryScore (weights : List (String × ℚ)) (results : List MetricResult) :
    Option ℚ :=
  let present := results.filter
    (fun r => hasWeight weights r.metric && decide (0 < r.confidence))
  if present = [] then none
  else
    let total := (present.map (fun r => lookupWeight weights r.metric)).sum
    some ((present.map
      (fun r => lookupWeight weights r.metric / total * r.score)).sum)

/-- Modelled from the spec: an item's overall score (§4.5 step 4).
Take only the categories with a defined score, renormalize the `overall`
weights over those present categories, and compute the weighted sum; if
no category has a defined score the overall score is undefined. -/
def overallScore (overallWeights : List (String × ℚ))
    (catScores : List (String × Option ℚ)) : Option ℚ :=
  let present := catScores.filterMap (fun p => p.2.map (fun s => (p.1, s)))
  if present = [] then none
  else
    let total := (present.map (fun p => lookupWeight overallWeights p.1)).sum
    some ((present.map
      (fun p => lookupWeight overallWeights p.1 / total * p.2)).sum)

/-! ## Session Accumulator (spec §4.6)

The backend session-accumulator code is not part of the source tree
(only its frontend caller `VideoMeeting.js` is); modelled from the
specification. -/

/-- One answer's finalized breakdown (spec §3 `ItemAnalysisResult`),
restricted to the fields the session-level aggregation reads: the
caller-supplied item index, the item's overall score (undefined when no
analyzer produced confident evidence) and its per-category scores. -/
structure ItemAnalysisResult where
  itemIndex : ℕ
  overall : Option ℚ
  categories : List (String × Option ℚ)
deriving DecidableEq, Repr

/-- The finalized assessment of a whole session (spec §3
`SessionResult`). -/
structure SessionResult where
  overall : Option ℚ
  perCategory : List (String × ℚ)
  items : List ItemAnalysisResult
  numItems : ℕ
deriving DecidableEq, Repr

/-- Protocol errors of the session state machine (spec §7). -/
inductive ProtocolError where
  | duplicateItem
  | sessionClosed
  | emptySession
deriving DecidableEq, Repr

/-- A session is either open (holding the items recorded so far, in
arrival order) or closed (holding the finalized result). -/
inductive SessionState where
  | opened (items : List ItemAnalysisResult)
  | closed (result : SessionResult)
deriving DecidableEq, Repr

/-- Modelled from the spec: `add_item` (§4.6).  A duplicate item index
is a protocol error, not a silent overwrite; `add_item` after finalize
fails with `SessionClosed`. -/
def addItem (s : SessionState) (item : ItemAnalysisResult) :
    Except ProtocolError SessionState :=
  match s with
  | .closed _ => .error .sessionClosed
  | .opened items =>
      if items.any (fun it => it.itemIndex == item.itemIndex) then
        .error .duplicateItem
      else
        .ok (.opened (items ++ [item]))

/-- The defined scores of category `name` across the items. -/
def categoryScoresAcrossItems (items : List ItemAnalysisResult)
    (name : String) : List ℚ :=
  items.filterMap (fun it => (it.categories.lookup name).getD none)

/-- Modelled from the spec: session-level aggregation (§4.6).  The
session overall score is the mean of the items' defined overall scores,
skipping any item whose overall score is undefined; likewise per
category, a category being omitted entirely when every item is unscored
for it; `num_items` counts all items. -/
def computeSessionResult (items : List ItemAnalysisResult) : SessionResult :=
  let scored := items.filterMap (fun it => it.overall)
  let catNames := (DEFAULT_WEIGHTS_categories.map (fun c => c.1))
  { overall := if scored = [] then none
               else some (scored.sum / scored.length)
    perCategory := catNames.filterMap (fun name =>
      let cs := categoryScoresAcrossItems items name
      if cs = [] then none else some (name, cs.sum / cs.length))
    items := items
    numItems := items.length }

/-- Modelled from the spec: `finalize` (§4.6).  Finalizing an open
session computes the `SessionResult` once and closes the session;
finalizing a closed session returns the previously computed result
without recomputation; finalizing before any item was added is a
protocol error (§7). -/
def finalize (s : SessionState) :
    Except ProtocolError (SessionResult × SessionState) :=
  match s with
  | .closed r => .ok (r, .closed r)
  | .opened [] => .error .emptySession
  | .opened items =>
      let r := computeSessionResult items
      .ok (r, .closed r)

/-! ## `VideoMeeting.js` — item-index allocation -/

/-- The mutable index state of the recording page: `nextIdxRef.current`
(`VideoMeeting.js`, line 43).  The JavaScript number is embedded as `ℤ`
so that the `Math.max(0, · - 1)` rollback is modelled faithfully. -/
structure RecState where
  nextIdx : ℤ
deriving DecidableEq, Repr

/-- Embedding of `allocateIdx` (`VideoMeeting.js`, lines 91–96): return
the current counter and increment it. -/
def allocateIdx (s : RecState) : ℤ × RecState :=
  (s.nextIdx, ⟨s.nextIdx + 1⟩)

/-- The failure path of `sendRecording` (`VideoMeeting.js`, lines
228–230): `nextIdxRef.current = Math.max(0, nextIdxRef.current - 1)`. -/
def rollbackIdx (s : RecState) : RecState :=
  ⟨max 0 (s.nextIdx - 1)⟩

/-- One completed `sendRecording` call (`VideoMeeting.js`, lines
166–235): the call allocates an index, then either the upload and the
analyze request both succeed (`ok = true`, the index was sent with a
completed analyze-item request) or one of them fails (`ok = false`, no
index is sent and the counter is rolled back).  Returns the index sent,
if any, and the new state.  The `isSendingRef` re-entrancy guard (set on
entry, cleared in `finally`) serializes the calls, so a run of the page
is a sequence of completed calls. -/
def sendAttempt (s : RecState) (ok : Bool) : Option ℤ × RecState :=
  let (i, s₁) := allocateIdx s
  if ok then (some i, s₁) else (none, rollbackIdx s₁)

/-- Run a sequence of completed `sendRecording` calls with the given
outcomes, collecting the indices sent with the successful ones. -/
def runAttempts (s : RecState) : List Bool → List ℤ × RecState
  | [] => ([], s)
  | ok :: rest =>
      let (sent, s₁) := sendAttempt s ok
      let (sents, s₂) := runAttempts s₁ rest
      (sent.toList ++ sents, s₂)

/-! ## Auxiliary definitions for claims of refinement form -/

/-- Follows the amended claim C2's words: the displayed overall grade of
an item is the rounded unweighted arithmetic mean of the categories with
a strictly positive score (a missing category score counts as 0 and is
therefore dropped), or 0 when no category has a positive score. -/
def unweightedMeanGrade (categories : List (Option ℚ)) : ℤ :=
  let pos := (categories.filterMap id).filter (fun s => 0 < s)
  if pos = [] then 0 else jsRound (pos.sum / pos.length)

/-- Coercing a missing score to `0` and keeping the positive ones is the
same as keeping the positive ones among the defined scores. -/
theorem map_getD_filter_pos (cs : List (Option ℚ)) :
    (cs.map (fun cat => cat.getD 0)).filter (fun score => 0 < score)
      = (cs.filterMap id).filter (fun s => 0 < s) := by
  induction cs with
  | nil => rfl
  | cons c rest ih =>
      cases c with
      | none => simpa using ih
      | some a =>
          by_cases ha : (0 : ℚ) < a
          · simp [ha, ih]
          · simp [ha, ih]

/-! ## Theorems for the claims -/

/-- C6: in `DEFAULT_WEIGHTS`, every weight is non-negative, the
`overall` category-weight map sums to 1.0, and each per-category
metric-weight map sums to 1.0. -/
theorem default_weights_valid :
    (∀ p ∈ DEFAULT_WEIGHTS_overall, 0 ≤ p.2) ∧
    (DEFAULT_WEIGHTS_overall.map (fun p => p.2)).sum = 1 ∧
    (∀ c ∈ DEFAULT_WEIGHTS_categories,
      (∀ p ∈ c.2, 0 ≤ p.2) ∧ (c.2.map (fun p => p.2)).sum = 1) := by
  norm_num [DEFAULT_WEIGHTS_overall, DEFAULT_WEIGHTS_categories]
  refine ⟨?_, ?_, ?_⟩
  · rintro a b (⟨-, rfl⟩ | ⟨-, rfl⟩ | ⟨-, rfl⟩) <;> norm_num
  · rintro a b (⟨-, rfl⟩ | ⟨-, rfl⟩ | ⟨-, rfl⟩) <;> norm_num
  · rintro a b (⟨-, rfl⟩ | ⟨-, rfl⟩) <;> norm_num

/-- C10: the performance-breakdown pie data omits an analyzer whose
score rounds to 0, and (a missing score being coerced to 0 before
rounding) an analyzer with the genuine worst-possible score 0 is
indistinguishable from an analyzer that produced no result. -/
theorem pie_data_drops_zero_score (pre post : List (String × Option ℚ))
    (k : String) :
    pieData (pre ++ (k, some 0) :: post) = pieData (pre ++ post) ∧
    pieData (pre ++ (k, some 0) :: post) = pieData (pre ++ (k, none) :: post) := by
  have h0 : jsRound 0 = 0 := jsRound_eq _ _ (by norm_num) (by norm_num)
  constructor <;>
    simp [pieData, List.map_append, List.filter_append, h0]

/-- C2, counterexample: with categories verbal = 80, body_language = 20,
interaction = 50, the code's `calculateOverallGrade` returns the
unweighted mean 50, while the claimed renormalized weighted sum under
the configured `overall` weights (0.2, 0.3, 0.5) is 47. -/
theorem overall_grade_unweighted_cex :
    calculateOverallGrade [some 80, some 20, some 50] = 50 ∧
    overallScore DEFAULT_WEIGHTS_overall
      [("verbal", some 80), ("body_language", some 20),
       ("interaction", some 50)] = some 47 ∧
    (50 : ℤ) ≠ 47 := by
  refine ⟨?_, ?_, by norm_num⟩
  · simp [calculateOverallGrade]
    exact jsRound_eq _ _ (by norm_num) (by norm_num)
  · simp [overallScore, DEFAULT_WEIGHTS_overall, lookupWeight]
    norm_num

/-- C2, amended: the overall grade of an item computed by
`calculateOverallGrade` is the rounded unweighted arithmetic mean of the
categories with a strictly positive score (0 if there is none); the
configured `overall` weights are not applied. -/
theorem overall_grade_eq_unweighted_mean (cs : List (Option ℚ)) :
    calculateOverallGrade cs = unweightedMeanGrade cs := by
  unfold calculateOverallGrade unweightedMeanGrade
  rw [map_getD_filter_pos cs]
  rcases eq_or_ne ((cs.filterMap id).filter (fun s => 0 < s)) [] with h | h
  · simp [h]
  · simp [h, List.length_eq_zero]

/-- C3, counterexample: when no category has a defined score, the code's
`calculateOverallGrade` returns the numeric value 0 (its return type is
numeric; there is no distinct undefined value). -/
theorem overall_grade_unscored_cex :
    calculateOverallGrade [none, none, none] = 0 := by
  simp [calculateOverallGrade]

/-- C3, amended: when no category of an item has a positive score (in
particular when every category score is missing), `calculateOverallGrade`
coerces the absence of evidence to the numeric score 0. -/
theorem overall_grade_unscored_eq_zero (cs : List (Option ℚ))
    (h : ∀ c ∈ cs, c.getD 0 ≤ 0) :
    calculateOverallGrade cs = 0 := by
  unfold calculateOverallGrade
  have hnil : (cs.map (fun cat => cat.getD 0)).filter
      (fun score => 0 < score) = [] := by
    rw [List.filter_eq_nil_iff]
    intro a ha
    obtain ⟨c, hc, rfl⟩ := List.mem_map.mp ha
    simpa using not_lt.mpr (h c hc)
  simp [hnil]

/-- Witness for C3's amended theorem at the concrete input
`[none, some 0]`. -/
theorem overall_grade_unscored_eq_zero_witness :
    calculateOverallGrade [none, some 0] = 0 :=
  overall_grade_unscored_eq_zero [none, some 0] (by decide)

/-- C1: a metric result with confidence 0 is excluded from the
category's weighted mean via weight renormalization rather than averaged
in as zero: dropping the zero-confidence results from the input does not
change the category score, and in the spec's scenario (weights a = 0.6,
b = 0.4; metric a at score 80 with confidence 1, metric b with
confidence 0) the category score is 80, not 48. -/
theorem category_score_ignores_zero_confidence (ws : List (String × ℚ))
    (results : List MetricResult) :
    categoryScore ws results
      = categoryScore ws (results.filter (fun r => 0 < r.confidence)) ∧
    categoryScore [("a", 0.6), ("b", 0.4)]
      [⟨"a", 80, 1⟩, ⟨"b", 0, 0⟩] = some 80 ∧
    categoryScore [("a", 0.6), ("b", 0.4)]
      [⟨"a", 80, 1⟩, ⟨"b", 0, 0⟩] ≠ some 48 := by
  have hscen : categoryScore [("a", 0.6), ("b", 0.4)]
      [⟨"a", 80, 1⟩, ⟨"b", 0, 0⟩] = some 80 := by
    simp [categoryScore, hasWeight, lookupWeight]
    norm_num
  refine ⟨?_, hscen, by rw [hscen]; simp⟩
  have h : (results.filter (fun r => decide (0 < r.confidence))).filter
      (fun r => hasWeight ws r.metric && decide (0 < r.confidence))
    = results.filter
      (fun r => hasWeight ws r.metric && decide (0 < r.confidence)) := by
    rw [List.filter_filter]
    congr 1
    funext r
    cases hm : hasWeight ws r.metric <;>
      cases hc : decide (0 < r.confidence) <;> simp [hm, hc]
  simp only [categoryScore]
  rw [h]

/-- C4, counterexample: in the configured verbal metric-weight map the
metric `language_quality` carries weight 0.0, so for the non-empty
present subset consisting of `language_quality` alone the configured
weights of the present metrics sum to 0 and the renormalized weights
do not sum to 1.0 (each is 0/0: NaN in floating point, 0 in this exact
embedding — under neither semantics does the sum equal 1). -/
theorem renormalized_weights_zero_sum_cex :
    (["language_quality"] : List String) ≠ [] ∧
    (renormalizedWeights
      [("language_quality", 0.0), ("speech_style", 0.5), ("grammar_ml", 0.5)]
      ["language_quality"]).sum = 0 ∧
    (renormalizedWeights
      [("language_quality", 0.0), ("speech_style", 0.5), ("grammar_ml", 0.5)]
      ["language_quality"]).sum ≠ 1 := by
  have h : (renormalizedWeights
      [("language_quality", 0.0), ("speech_style", 0.5), ("grammar_ml", 0.5)]
      ["language_quality"]).sum = 0 := by
    simp [renormalizedWeights, lookupWeight]
    norm_num
  exact ⟨by simp, h, by rw [h]; norm_num⟩

/-- C4, amended: for every metric-weight map and every non-empty subset
of present metrics whose configured weights have positive sum, the
renormalized weights (each present metric's configured weight divided by
the sum of configured weights of present metrics) sum to exactly 1. -/
theorem renormalized_weights_sum_one (weights : List (String × ℚ))
    (present : List String) (_hne : present ≠ [])
    (hpos : 0 < (present.map (lookupWeight weights)).sum) :
    (renormalizedWeights weights present).sum = 1 := by
  simp only [renormalizedWeights, div_eq_mul_inv]
  rw [List.sum_map_mul_right]
  exact mul_inv_cancel₀ (ne_of_gt hpos)

/-- Witness for C4's amended theorem on the configured verbal weights
with present metrics `speech_style` and `grammar_ml`. -/
theorem renormalized_weights_sum_one_witness :
    (["speech_style", "grammar_ml"] : List String) ≠ [] ∧
    0 < ((["speech_style", "grammar_ml"] : List String).map
      (lookupWeight [("language_quality", (0.0 : ℚ)), ("speech_style", 0.5),
        ("grammar_ml", 0.5)])).sum ∧
    (renormalizedWeights
      [("language_quality", 0.0), ("speech_style", 0.5), ("grammar_ml", 0.5)]
      ["speech_style", "grammar_ml"]).sum = 1 :=
  ⟨by simp, by simp [lookupWeight]; norm_num,
    renormalized_weights_sum_one _ _ (by simp)
      (by simp [lookupWeight]; norm_num)⟩

/-- C5: the session overall score is the arithmetic mean of only the
items' defined overall scores — appending an unscored item leaves it
unchanged while `num_items` still counts the item — and in the spec's
scenario (item 1 scores 70, item 2 unscored) the session overall score
is 70 and `num_items` is 2. -/
theorem session_overall_skips_unscored (items : List ItemAnalysisResult)
    (i : ItemAnalysisResult) (h : i.overall = none) :
    (computeSessionResult (items ++ [i])).overall
      = (computeSessionResult items).overall ∧
    (computeSessionResult (items ++ [i])).numItems = items.length + 1 ∧
    (computeSessionResult [⟨0, some 70, []⟩, ⟨1, none, []⟩]).overall
      = some 70 ∧
    (computeSessionResult [⟨0, some 70, []⟩, ⟨1, none, []⟩]).numItems = 2 := by
  refine ⟨?_, ?_, ?_, ?_⟩
  · simp [computeSessionResult, List.filterMap_append, h]
  · simp [computeSessionResult]
  · simp [computeSessionResult]
  · simp [computeSessionResult]

/-- Witness for C5 at the concrete two-item session of the spec's
scenario. -/
theorem session_overall_skips_unscored_witness :
    (computeSessionResult ([⟨0, some 70, []⟩] ++ [⟨1, none, []⟩])).overall
      = (computeSessionResult [⟨0, some 70, []⟩]).overall ∧
    (computeSessionResult ([⟨0, some 70, []⟩] ++ [⟨1, none, []⟩])).numItems
      = [(⟨0, some 70, []⟩ : ItemAnalysisResult)].length + 1 ∧
    (computeSessionResult [⟨0, some 70, []⟩, ⟨1, none, []⟩]).overall
      = some 70 ∧
    (computeSessionResult [⟨0, some 70, []⟩, ⟨1, none, []⟩]).numItems = 2 :=
  session_overall_skips_unscored [⟨0, some 70, []⟩] ⟨1, none, []⟩ rfl

/-- C7: `finalize` is a one-shot transition: once `finalize` has
returned a result and moved the session to the closed state, a second
`finalize` returns the identical previously computed `SessionResult`
without recomputation, and any `add_item` on the closed session fails
with the `SessionClosed` protocol error. -/
theorem finalize_one_shot (s : SessionState) (r : SessionResult)
    (s' : SessionState) (h : finalize s = .ok (r, s')) :
    finalize s' = .ok (r, s') ∧
    ∀ item, addItem s' item = .error .sessionClosed := by
  have hs' : s' = .closed r := by
    cases s with
    | closed r0 =>
        simp only [finalize, Except.ok.injEq, Prod.mk.injEq] at h
        rw [← h.2, ← h.1]
    | opened items =>
        cases items with
        | nil => simp [finalize] at h
        | cons it its =>
            simp only [finalize, Except.ok.injEq, Prod.mk.injEq] at h
            rw [← h.2, ← h.1]
  subst hs'
  exact ⟨rfl, fun _ => rfl⟩

/-- Witness for C7: finalizing a concrete one-item session and then
finalizing again / adding an item to the closed session. -/
theorem finalize_one_shot_witness :
    finalize (SessionState.closed (computeSessionResult [⟨0, some 70, []⟩]))
      = Except.ok (computeSessionResult [⟨0, some 70, []⟩],
          SessionState.closed (computeSessionResult [⟨0, some 70, []⟩])) ∧
    ∀ item, addItem
        (SessionState.closed (computeSessionResult [⟨0, some 70, []⟩])) item
      = Except.error ProtocolError.sessionClosed :=
  finalize_one_shot (SessionState.opened [⟨0, some 70, []⟩]) _ _ rfl

/-- C8: adding an item whose index was already recorded for the same
open session fails with the `DuplicateItem` protocol error on the second
call; the duplicate is neither silently ignored nor an overwrite. -/
theorem add_item_duplicate_error (items : List ItemAnalysisResult)
    (item₁ item₂ : ItemAnalysisResult) (s' : SessionState)
    (hidx : item₂.itemIndex = item₁.itemIndex)
    (h : addItem (.opened items) item₁ = .ok s') :
    addItem s' item₂ = .error .duplicateItem := by
  simp only [addItem] at h
  by_cases hdup : items.any (fun it => it.itemIndex == item₁.itemIndex)
  · simp [hdup] at h
  · simp only [hdup, Bool.false_eq_true, if_false, Except.ok.injEq] at h
    subst h
    simp only [addItem]
    have hany : (items ++ [item₁]).any
        (fun it => it.itemIndex == item₂.itemIndex) = true := by
      rw [List.any_append]
      simp [hidx]
    simp [hany]

/-- Witness for C8: the index 0 recorded once, then submitted again. -/
theorem add_item_duplicate_error_witness :
    addItem (SessionState.opened [⟨0, some 70, []⟩]) ⟨0, some 50, []⟩
      = Except.error ProtocolError.duplicateItem :=
  add_item_duplicate_error [] ⟨0, some 70, []⟩ ⟨0, some 50, []⟩
    (SessionState.opened [⟨0, some 70, []⟩]) rfl rfl

/-- The consecutive integers `n, n + 1, …, n + k - 1`. -/
def consecFrom (n : ℤ) : ℕ → List ℤ
  | 0 => []
  | k + 1 => n :: consecFrom (n + 1) k

theorem consecFrom_eq_range_map (k : ℕ) :
    ∀ n : ℤ, consecFrom n k = (List.range k).map (fun j : ℕ => n + (j : ℤ)) := by
  induction k with
  | zero => intro n; rfl
  | succ k ih =>
      intro n
      rw [consecFrom, ih (n + 1), List.range_succ_eq_map, List.map_cons,
        List.map_map]
      congr 1
      · norm_num
      · refine List.map_congr_left ?_
        intro j _
        simp [Function.comp, Nat.succ_eq_add_one]
        ring

/-- Invariant of the send loop: starting from a non-negative counter
`n`, the indices sent with the successful attempts are
`n, n + 1, …, n + successes - 1` and the counter ends at
`n + successes`. -/
theorem runAttempts_spec (outs : List Bool) :
    ∀ n : ℤ, 0 ≤ n →
      (runAttempts ⟨n⟩ outs).1 = consecFrom n (outs.count true) ∧
      (runAttempts ⟨n⟩ outs).2.nextIdx = n + outs.count true := by
  induction outs with
  | nil => intro n hn; simp [runAttempts, consecFrom]
  | cons ok rest ih =>
      intro n hn
      cases ok with
      | false =>
          have hroll : rollbackIdx ⟨n + 1⟩ = ⟨n⟩ := by
            simp only [rollbackIdx, RecState.mk.injEq]
            rw [max_eq_right (by omega : (0 : ℤ) ≤ n + 1 - 1)]
            omega
          obtain ⟨ih1, ih2⟩ := ih n hn
          simp [runAttempts, sendAttempt, allocateIdx, hroll,
            List.count_cons, ih1, ih2]
      | true =>
          obtain ⟨ih1, ih2⟩ := ih (n + 1) (by omega)
          refine ⟨?_, ?_⟩
          · simp [runAttempts, sendAttempt, allocateIdx, List.count_cons,
              ih1, consecFrom]
          · simp [runAttempts, sendAttempt, allocateIdx, List.count_cons, ih2]
            ring

/-- C9: within one recording-page session the item indices sent with
successfully completed analyze-item requests form the consecutive
sequence 0, 1, 2, … with no duplicates: `allocateIdx` increments a
single counter, a failed upload or analysis rolls the counter back
(never below 0) so the failed index is reused by the next attempt, and
the calls — serialized by the `isSendingRef` re-entrancy guard — send
index `j` with the `j`-th successful attempt. -/
theorem sent_indices_consecutive (outs : List Bool) :
    (runAttempts ⟨0⟩ outs).1
      = (List.range (outs.count true)).map (fun j : ℕ => (j : ℤ)) ∧
    (runAttempts ⟨0⟩ outs).1.Nodup ∧
    0 ≤ (runAttempts ⟨0⟩ outs).2.nextIdx := by
  obtain ⟨h1, h2⟩ := runAttempts_spec outs 0 le_rfl
  have hr : (runAttempts ⟨0⟩ outs).1
      = (List.range (outs.count true)).map (fun j : ℕ => (j : ℤ)) := by
    rw [h1, consecFrom_eq_range_map]
    simp
  refine ⟨hr, ?_, ?_⟩
  · rw [hr]
    exact (List.nodup_range _).map Nat.cast_injective
  · rw [h2]
    positivity

end SpeakEase
